import Mathlib

/-!
Verification of the Contract-IQ-Light backend core: the document
ingestion/retrieval pipeline (chunking, embedding, similarity search) and the
fallback-chained LLM completion policy, shallowly embedded from
`packages/backend` (routes/documents.py, routes/analysis.py,
services/ai_service.py, services/embedding_service.py,
services/supabase_service.py, middleware/rate_limiter.py).

Text is modelled as `List Char`, wall-clock timestamps as `Int`, machine
floats that are merely carried around (embedding vectors) as `List Int`
respectively `List Rat`; external collaborators (HTTP providers, the
database) are modelled as explicit outcome parameters.
-/

namespace ContractIQ

/-! ## Chunker

The repository delegates text splitting to
`langchain.text_splitter.RecursiveCharacterTextSplitter`, which is a
third-party library whose code is not part of the repository; the call sites
(routes/documents.py, `upload_document` and `process_document`) fix the
parameters: `chunk_size`, `chunk_overlap`, `length_function=len` and the
separator list `["\n\n", "\n", ". ", "! ", "? ", "; ", ", ", " ", ""]`.
The splitter itself is therefore modelled from the spec (section 4.1). -/

namespace Chunker

/-- The separator priority list, coarsest first, exactly as passed to the
splitter by `upload_document` and `process_document`
(routes/documents.py lines 99 and 234). -/
def separators : List (List Char) :=
  ["\n\n", "\n", ". ", "! ", "? ", "; ", ", ", " ", ""].map String.toList

/-- Modelled from the spec: end positions (one past the separator) of all
occurrences of `sep` inside the current window that leave more than
`overlap` characters before the break, so that a break there makes
progress past the overlap carried into the next chunk. -/
def sepEnds (sep window : List Char) (overlap : Nat) : List Nat :=
  (List.range window.length).filterMap fun i =>
    if sep ≠ [] ∧ sep.isPrefixOf (window.drop i) ∧ overlap < i + sep.length then
      some (i + sep.length)
    else none

/-- Modelled from the spec: the break position for the next chunk, preferring
the coarsest separator that occurs in the first `chunkSize` characters
(taking its last usable occurrence so the chunk stays as large as allowed),
falling back to a plain character boundary at `chunkSize`. -/
def chooseBreak (chunkSize overlap : Nat) (rem : List Char) : Nat :=
  let window := rem.take chunkSize
  match (separators.filterMap fun sep => (sepEnds sep window overlap).max?).head? with
  | some b => b
  | none => max chunkSize (overlap + 1)

theorem sepEnds_bounds {sep window : List Char} {overlap b : Nat}
    (hb : b ∈ sepEnds sep window overlap) : overlap < b ∧ b ≤ window.length := by
  unfold sepEnds at hb
  rcases List.mem_filterMap.mp hb with ⟨i, hi, hcond⟩
  by_cases h : sep ≠ [] ∧ sep.isPrefixOf (window.drop i) ∧ overlap < i + sep.length
  · rw [if_pos h] at hcond
    obtain ⟨-, hpre, hov⟩ := h
    have hlen : sep.length ≤ (window.drop i).length :=
      (List.isPrefixOf_iff_prefix.mp hpre).length_le
    rw [List.length_drop] at hlen
    have hi' : i < window.length := List.mem_range.mp hi
    cases hcond
    exact ⟨hov, by omega⟩
  · rw [if_neg h] at hcond
    cases hcond

theorem chooseBreak_gt_overlap (chunkSize overlap : Nat) (rem : List Char) :
    overlap < chooseBreak chunkSize overlap rem := by
  unfold chooseBreak
  cases hh : (separators.filterMap fun sep =>
      (sepEnds sep (rem.take chunkSize) overlap).max?).head? with
  | none => simp only [hh]; omega
  | some b =>
      simp only [hh]
      have hmem := List.mem_of_mem_head? hh
      rcases List.mem_filterMap.mp hmem with ⟨sep, -, hmax⟩
      have hb : b ∈ sepEnds sep (rem.take chunkSize) overlap :=
        List.max?_mem (fun a b => max_choice a b) hmax
      exact (sepEnds_bounds hb).1

theorem chooseBreak_le {chunkSize overlap : Nat} (h : overlap < chunkSize)
    (rem : List Char) : chooseBreak chunkSize overlap rem ≤ chunkSize := by
  unfold chooseBreak
  cases hh : (separators.filterMap fun sep =>
      (sepEnds sep (rem.take chunkSize) overlap).max?).head? with
  | none => simp only [hh]; omega
  | some b =>
      simp only [hh]
      have hmem := List.mem_of_mem_head? hh
      rcases List.mem_filterMap.mp hmem with ⟨sep, -, hmax⟩
      have hb : b ∈ sepEnds sep (rem.take chunkSize) overlap :=
        List.max?_mem (fun a b => max_choice a b) hmax
      have hlen : b ≤ (rem.take chunkSize).length := (sepEnds_bounds hb).2
      simp only [List.length_take] at hlen
      omega

/-- Modelled from the spec: emit chunks from the remaining text; if the rest
fits in one chunk emit it whole, otherwise break at `chooseBreak` and carry
`overlap` trailing characters into the next chunk. -/
def go (chunkSize overlap : Nat) (rem : List Char) : List (List Char) :=
  if rem.length ≤ chunkSize then [rem]
  else
    let brk := chooseBreak chunkSize overlap rem
    rem.take brk :: go chunkSize overlap (rem.drop (brk - overlap))
termination_by rem.length
decreasing_by
  simp only [List.length_drop]
  have h1 := chooseBreak_gt_overlap chunkSize overlap rem
  omega

/-- Modelled from the spec (section 4.1): `split(text, chunk_size, overlap)`.
Empty or whitespace-only input yields the empty sequence ("no extractable
content"); otherwise the text is cut into overlapping chunks. -/
def split (text : List Char) (chunkSize overlap : Nat) : List (List Char) :=
  if text.all (·.isWhitespace) then [] else go chunkSize overlap text

/-- Concatenation of a chunk sequence ignoring the overlap duplication: the
first chunk in full, every later chunk with its leading `overlap` carried
characters removed. -/
def joinOverlap (overlap : Nat) : List (List Char) → List Char
  | [] => []
  | c :: cs => c ++ (cs.map (List.drop overlap)).flatten

theorem go_shape {chunkSize overlap : Nat} (hov : overlap < chunkSize) :
    ∀ n (rem : List Char), rem.length ≤ n → rem ≠ [] →
      go chunkSize overlap rem ≠ [] ∧
      ∀ c ∈ go chunkSize overlap rem, c ≠ [] ∧ c.length ≤ chunkSize := by
  intro n
  induction n with
  | zero =>
      intro rem hlen hne
      exact absurd (List.length_eq_zero.mp (Nat.le_zero.mp hlen)) hne
  | succ n ih =>
      intro rem hlen hne
      rw [go]
      by_cases hfit : rem.length ≤ chunkSize
      · rw [if_pos hfit]
        refine ⟨by simp, ?_⟩
        intro c hc
        rw [List.mem_singleton] at hc
        subst hc
        exact ⟨hne, hfit⟩
      · rw [if_neg hfit]
        push_neg at hfit
        have hbrk1 := chooseBreak_gt_overlap chunkSize overlap rem
        have hbrk2 := chooseBreak_le hov rem
        set brk := chooseBreak chunkSize overlap rem with hbrkdef
        have hlen' : (rem.drop (brk - overlap)).length ≤ n := by
          rw [List.length_drop]; omega
        have hne' : rem.drop (brk - overlap) ≠ [] := by
          rw [← List.length_pos, List.length_drop]; omega
        obtain ⟨hgo, hmem⟩ := ih (rem.drop (brk - overlap)) hlen' hne'
        refine ⟨by simp, ?_⟩
        intro c hc
        rcases List.mem_cons.mp hc with h | h
        · subst h
          constructor
          · rw [← List.length_pos, List.length_take]; omega
          · rw [List.length_take]; omega
        · exact hmem c h

theorem go_map_drop {chunkSize overlap : Nat} (hov : overlap < chunkSize) :
    ∀ n (rem : List Char), rem.length ≤ n →
      ((go chunkSize overlap rem).map (List.drop overlap)).flatten = rem.drop overlap := by
  intro n
  induction n with
  | zero =>
      intro rem hlen
      have : rem = [] := List.length_eq_zero.mp (Nat.le_zero.mp hlen)
      subst this
      rw [go]
      simp
  | succ n ih =>
      intro rem hlen
      rw [go]
      by_cases hfit : rem.length ≤ chunkSize
      · rw [if_pos hfit]; simp
      · rw [if_neg hfit]
        push_neg at hfit
        have hbrk1 := chooseBreak_gt_overlap chunkSize overlap rem
        have hbrk2 := chooseBreak_le hov rem
        set brk := chooseBreak chunkSize overlap rem with hbrkdef
        have hlen' : (rem.drop (brk - overlap)).length ≤ n := by
          rw [List.length_drop]; omega
        rw [List.map_cons, List.flatten_cons, ih _ hlen']
        rw [List.drop_drop, List.drop_take]
        have h1 : brk - overlap + overlap = brk := by omega
        rw [h1]
        have h2 : rem.drop brk = List.drop (brk - overlap) (rem.drop overlap) := by
          rw [List.drop_drop]
          congr 1
          omega
        rw [h2, List.take_append_drop]

theorem go_joinOverlap {chunkSize overlap : Nat} (hov : overlap < chunkSize) :
    ∀ (rem : List Char), joinOverlap overlap (go chunkSize overlap rem) = rem := by
  intro rem
  rw [go]
  by_cases hfit : rem.length ≤ chunkSize
  · rw [if_pos hfit]; simp [joinOverlap]
  · rw [if_neg hfit]
    push_neg at hfit
    have hbrk1 := chooseBreak_gt_overlap chunkSize overlap rem
    have hbrk2 := chooseBreak_le hov rem
    set brk := chooseBreak chunkSize overlap rem with hbrkdef
    rw [joinOverlap, go_map_drop hov (rem.drop (brk - overlap)).length _ le_rfl]
    rw [List.drop_drop]
    have h1 : brk - overlap + overlap = brk := by omega
    rw [h1, List.take_append_drop]

theorem split_blank {text : List Char} {chunkSize overlap : Nat}
    (h : text.all (·.isWhitespace)) : split text chunkSize overlap = [] := by
  rw [split, if_pos h]

theorem split_not_blank {text : List Char} {chunkSize overlap : Nat}
    (h : ¬ text.all (·.isWhitespace)) :
    split text chunkSize overlap = go chunkSize overlap text := by
  rw [split, if_neg h]

theorem not_blank_ne_nil {text : List Char}
    (h : ¬ text.all (·.isWhitespace)) : text ≠ [] := by
  intro hnil
  subst hnil
  simp at h

theorem split_single {text : List Char} {chunkSize overlap : Nat}
    (hnb : ¬ text.all (·.isWhitespace)) (hlen : text.length ≤ chunkSize) :
    split text chunkSize overlap = [text] := by
  rw [split_not_blank hnb, go, if_pos hlen]

end Chunker

/-! ## Rate limiter

Embedded from middleware/rate_limiter.py, `RateLimiter.is_allowed` (lines
21-54).  A single client's deque of recorded request timestamps is modelled
as a `List Int` (oldest first); `time.time()` values are modelled as `Int`.
The periodic `_cleanup_old_entries` sweep performs the same
pop-from-the-front pruning on each client's deque and is therefore absorbed
into the pruning step of `isAllowedStep`. -/

namespace RateLimiter

/-- The pruning loop `while client_requests and client_requests[0] < cutoff_time:
client_requests.popleft()` with `cutoff_time = current_time - window`. -/
def pruneWindow (now window : Int) (dq : List Int) : List Int :=
  dq.dropWhile (fun t => decide (t < now - window))

/-- One call of `is_allowed` for a fixed client: prune, deny (recording
nothing) when the deque already holds `limit` entries, otherwise record
the current time and allow.  Returns the result and the new deque. -/
def isAllowedStep (limit : Nat) (window : Int) (dq : List Int) (now : Int) :
    Bool × List Int :=
  let pruned := pruneWindow now window dq
  if limit ≤ pruned.length then (false, pruned) else (true, pruned ++ [now])

/-- Timestamps of the calls that `is_allowed` answers `True`, over a
chronological sequence of call times `ts` starting from deque `dq`. -/
def allowedTimes (limit : Nat) (window : Int) : List Int → List Int → List Int
  | _, [] => []
  | dq, t :: ts =>
    match isAllowedStep limit window dq t with
    | (true, dq') => t :: allowedTimes limit window dq' ts
    | (false, dq') => allowedTimes limit window dq' ts

/-- Membership test for the closed sliding window `[a, a + window]`. -/
def inWindow (a window t : Int) : Bool :=
  decide (a ≤ t) && decide (t ≤ a + window)

theorem allowedTimes_subset (limit : Nat) (window : Int) :
    ∀ (ts dq : List Int) (t : Int), t ∈ allowedTimes limit window dq ts → t ∈ ts := by
  intro ts
  induction ts with
  | nil => intro dq t h; simp [allowedTimes] at h
  | cons t0 ts ih =>
      intro dq t h
      rw [allowedTimes] at h
      rcases hstep : isAllowedStep limit window dq t0 with ⟨r, dq'⟩
      rw [hstep] at h
      cases r with
      | true =>
          rcases List.mem_cons.mp h with h | h
          · exact h ▸ List.mem_cons_self _ _
          · exact List.mem_cons_of_mem _ (ih dq' t h)
      | false => exact List.mem_cons_of_mem _ (ih dq' t h)

theorem allowedTimes_none_in_window (limit : Nat) (window a : Int)
    (ts dq : List Int) (hlate : ∀ t ∈ ts, a + window < t) :
    (allowedTimes limit window dq ts).filter (inWindow a window) = [] := by
  apply List.filter_eq_nil_iff.mpr
  intro t ht
  have := hlate t (allowedTimes_subset limit window ts dq t ht)
  simp only [inWindow, Bool.and_eq_true, decide_eq_true_eq, not_and]
  intro
  omega

theorem pruneWindow_filter_eq {now window a : Int} (hcut : now - window ≤ a)
    (dq : List Int) :
    (pruneWindow now window dq).filter (fun x => decide (a ≤ x)) =
      dq.filter (fun x => decide (a ≤ x)) := by
  unfold pruneWindow
  conv_rhs => rw [← List.takeWhile_append_dropWhile
    (p := fun t => decide (t < now - window)) (l := dq)]
  rw [List.filter_append]
  have h1 : (dq.takeWhile (fun t => decide (t < now - window))).filter
      (fun x => decide (a ≤ x)) = [] := by
    apply List.filter_eq_nil_iff.mpr
    intro x hx
    have := List.mem_takeWhile_imp hx
    simp only [decide_eq_true_eq] at this ⊢
    omega
  rw [h1, List.nil_append]

theorem pruneWindow_subset {now window : Int} {dq : List Int} :
    ∀ x ∈ pruneWindow now window dq, x ∈ dq :=
  fun _ hx => (List.dropWhile_sublist _).mem hx

/-- Core invariant: starting from deque `dq`, the number of allowed call
times inside `[a, a + window]` plus the deque entries at or after `a`
never exceeds `max limit (deque entries at or after a)`. -/
theorem count_bound (limit : Nat) (window a : Int) :
    ∀ ts : List Int, ts.Pairwise (· ≤ ·) →
    ∀ dq : List Int, (∀ x ∈ dq, ∀ t ∈ ts, x ≤ t) →
    ((allowedTimes limit window dq ts).filter (inWindow a window)).length
        + (dq.filter (fun x => decide (a ≤ x))).length
      ≤ max limit (dq.filter (fun x => decide (a ≤ x))).length := by
  intro ts
  induction ts with
  | nil =>
      intro _ dq _
      simp [allowedTimes, le_max_right]
  | cons t ts ih =>
      intro hpw dq hdq
      have ht_ts : ∀ t' ∈ ts, t ≤ t' := (List.pairwise_cons.mp hpw).1
      have hpw' : ts.Pairwise (· ≤ ·) := (List.pairwise_cons.mp hpw).2
      by_cases hlate : a + window < t
      · have hlate' : ∀ t' ∈ t :: ts, a + window < t' := by
          intro t' ht'
          rcases List.mem_cons.mp ht' with h | h
          · omega
          · have := ht_ts t' h; omega
        rw [allowedTimes_none_in_window limit window a (t :: ts) dq hlate']
        simp [le_max_right]
      · push_neg at hlate
        have hcut : t - window ≤ a := by omega
        rw [allowedTimes]
        rcases hstep : isAllowedStep limit window dq t with ⟨r, dq'⟩
        unfold isAllowedStep at hstep
        simp only at hstep
        by_cases hfull : limit ≤ (pruneWindow t window dq).length
        · rw [if_pos hfull] at hstep
          cases hstep
          have hsub : ∀ x ∈ pruneWindow t window dq, ∀ t' ∈ ts, x ≤ t' :=
            fun x hx t' ht' => hdq x (pruneWindow_subset x hx) t'
              (List.mem_cons_of_mem _ ht')
          have hIH := ih hpw' (pruneWindow t window dq) hsub
          rw [pruneWindow_filter_eq hcut] at hIH
          exact hIH
        · rw [if_neg hfull] at hstep
          cases hstep
          push_neg at hfull
          have hsub : ∀ x ∈ pruneWindow t window dq ++ [t], ∀ t' ∈ ts, x ≤ t' := by
            intro x hx t' ht'
            rcases List.mem_append.mp hx with h | h
            · exact hdq x (pruneWindow_subset x h) t' (List.mem_cons_of_mem _ ht')
            · rw [List.mem_singleton] at h
              exact h ▸ ht_ts t' ht'
          have hIH := ih hpw' (pruneWindow t window dq ++ [t]) hsub
          rw [List.filter_append, pruneWindow_filter_eq hcut] at hIH
          have hk : (dq.filter (fun x => decide (a ≤ x))).length ≤
              (pruneWindow t window dq).length := by
            rw [← pruneWindow_filter_eq hcut]
            exact List.length_filter_le _ _
          rw [List.filter_cons]
          by_cases hat : a ≤ t
          · have hwin : inWindow a window t = true := by
              simp [inWindow, hat]; omega
            rw [if_pos hwin]
            have hft : List.filter (fun x => decide (a ≤ x)) [t] = [t] := by
              simp [hat]
            rw [hft] at hIH
            simp only [List.length_cons, List.length_append] at hIH ⊢
            omega
          · have hwin : inWindow a window t = false := by
              simp [inWindow]; intro h; omega
            rw [if_neg (by simp [hwin])]
            have hft : List.filter (fun x => decide (a ≤ x)) [t] = [] := by
              simp [hat]
            rw [hft, List.append_nil] at hIH
            exact hIH

end RateLimiter

/-! ## Completion Client

Embedded from services/ai_service.py, `AIService.chat_completion` (lines
43-136) and `_get_fallback_response` (lines 276-325).  A provider call
(`client.chat.completions.create`) is modelled by its outcome: the returned
choice list, or the exception it raises.  A choice message's `content` is a
`String` where `""` stands for any falsy Python value (`None` or the empty
string); the optional `reasoning` attribute is an `Option String` (`none`
models an absent attribute).  The result is `Except String String`: `error`
models a raised `AIServiceError` carrying its message. -/

namespace AIService

def chatFallbackText : String :=
  "I\x27m sorry, but I\x27m currently unable to access the AI model due to authentication or rate limit issues. Please check your API key on OpenRouter. For now, here\x27s a sample response: **Key Advice:** Review all clauses carefully, especially termination and liability sections."

def summaryFallbackText : String :=
  "## Parties Involved:\n- Party A: [Extracted from document, e.g., the company providing services]\n- Party B: [Extracted from document, e.g., the client receiving services]\n\n## Key Terms:\n- Duration: [e.g., 1 year from start date]\n- Compensation: [e.g., $10,000 paid monthly]\n\n## Obligations:\n- Party A must provide the agreed services on time.\n- Party B must make payments as scheduled.\n\n## Potential Risks:\n- Late payments could lead to delays in services.\n- Breaking the agreement might result in legal fees.\n\n## Next Steps:\n- Review the full contract with a lawyer.\n- Sign and return by the deadline."

def riskFallbackText : String :=
  "\n            <div style=\"text-align: center; margin-bottom: 15px;\"><span style=\"background-color: red; color: white; padding: 8px 16px; border-radius: 20px; font-weight: bold; font-size: 18px; display: inline-block; text-align: center;\">High Risks</span></div>\n            <div style=\"background-color: rgba(255,0,0,0.05); padding: 15px; border-radius: 8px; margin-bottom: 25px; border-left: 4px solid red; text-align: left;\">\n              <ul style=\"margin: 0; padding-left: 20px; list-style-type: disc;\">\n                <li>Potential breach of confidentiality: Review <span style=\"background-color: red; color: white; padding: 2px 4px; border-radius: 3px; font-weight: bold;\">non-disclosure clauses</span></li>\n              </ul>\n            </div>\n            <div style=\"height: 20px;\"></div>\n\n            <div style=\"text-align: center; margin-bottom: 15px;\"><span style=\"background-color: orange; color: white; padding: 8px 16px; border-radius: 20px; font-weight: bold; font-size: 18px; display: inline-block; text-align: center;\">Medium Risks</span></div>\n            <div style=\"background-color: rgba(255,165,0,0.05); padding: 15px; border-radius: 8px; margin-bottom: 25px; border-left: 4px solid orange; text-align: left;\">\n              <ul style=\"margin: 0; padding-left: 20px; list-style-type: disc;\">\n                <li>Payment terms may lead to disputes with <span style=\"background-color: orange; color: white; padding: 2px 4px; border-radius: 3px; font-weight: bold;\">payment terms</span></li>\n              </ul>\n            </div>\n            <div style=\"height: 20px;\"></div>\n\n            <div style=\"text-align: center; margin-bottom: 15px;\"><span style=\"background-color: green; color: white; padding: 8px 16px; border-radius: 20px; font-weight: bold; font-size: 18px; display: inline-block; text-align: center;\">Low Risks</span></div>\n            <div style=\"background-color: rgba(0,128,0,0.05); padding: 15px; border-radius: 8px; margin-bottom: 25px; border-left: 4px solid green; text-align: left;\">\n              <ul style=\"margin: 0; padding-left: 20px; list-style-type: disc;\">\n                <li>Standard <span style=\"background-color: green; color: white; padding: 2px 4px; border-radius: 3px; font-weight: bold;\">termination clauses</span></li>\n              </ul>\n            </div>\n            "

def genericFallbackText : String :=
  "AI service temporarily unavailable. Please try again later."

def endpointSummaryFallbackText : String :=
  "## Parties Involved:\n- Party A: [Extracted from document, e.g., the company providing services]\n- Party B: [Extracted from document, e.g., the client receiving services]\n\n## Key Terms:\n- Duration: [e.g., 1 year from start date]\n- Compensation: [e.g., $10,000 paid monthly]\n\n## Obligations:\n- Party A must provide the agreed services on time.\n- Party B must make payments as scheduled.\n\n## Potential Risks:\n- Late payments could lead to delays in services.\n- Breaking the agreement might result in legal fees.\n\n## Next Steps:\n- Review the full contract with a lawyer.\n- Sign and return by the deadline."

def endpointRiskFallbackText : String :=
  "\n        <div style=\"text-align: center; margin-bottom: 15px;\"><span style=\"background-color: red; color: white; padding: 8px 16px; border-radius: 20px; font-weight: bold; font-size: 18px; display: inline-block; text-align: center;\">High Risks</span></div>\n        <div style=\"background-color: rgba(255,0,0,0.05); padding: 15px; border-radius: 8px; margin-bottom: 25px; border-left: 4px solid red; text-align: left;\">\n          <ul style=\"margin: 0; padding-left: 20px; list-style-type: disc;\">\n            <li>Potential breach of confidentiality: Review <span style=\"background-color: red; color: white; padding: 2px 4px; border-radius: 3px; font-weight: bold;\">non-disclosure clauses</span></li>\n          </ul>\n        </div>\n        <div style=\"height: 20px;\"></div>\n\n        <div style=\"text-align: center; margin-bottom: 15px;\"><span style=\"background-color: orange; color: white; padding: 8px 16px; border-radius: 20px; font-weight: bold; font-size: 18px; display: inline-block; text-align: center;\">Medium Risks</span></div>\n        <div style=\"background-color: rgba(255,165,0,0.05); padding: 15px; border-radius: 8px; margin-bottom: 25px; border-left: 4px solid orange; text-align: left;\">\n          <ul style=\"margin: 0; padding-left: 20px; list-style-type: disc;\">\n            <li>Payment terms may lead to disputes with <span style=\"background-color: orange; color: white; padding: 2px 4px; border-radius: 3px; font-weight: bold;\">payment terms</span></li>\n          </ul>\n        </div>\n        <div style=\"height: 20px;\"></div>\n\n        <div style=\"text-align: center; margin-bottom: 15px;\"><span style=\"background-color: green; color: white; padding: 8px 16px; border-radius: 20px; font-weight: bold; font-size: 18px; display: inline-block; text-align: center;\">Low Risks</span></div>\n        <div style=\"background-color: rgba(0,128,0,0.05); padding: 15px; border-radius: 8px; margin-bottom: 25px; border-left: 4px solid green; text-align: left;\">\n          <ul style=\"margin: 0; padding-left: 20px; list-style-type: disc;\">\n            <li>Standard <span style=\"background-color: green; color: white; padding: 2px 4px; border-radius: 3px; font-weight: bold;\">termination clauses</span></li>\n          </ul>\n        </div>\n        "

def endpointQueryFallbackText : String :=
  "I\x27m sorry, but I\x27m currently unable to access the AI model due to authentication or rate limit issues. Please check your API key on OpenRouter."


structure ChoiceMsg where
  content : String
  reasoning : Option String
deriving DecidableEq, Repr

/-- Outcome of one `client.chat.completions.create` call. -/
inductive CallOutcome where
  | ok (choices : List ChoiceMsg)
  | authError (msg : String)
  | rateLimitError (msg : String)
  | otherError (msg : String)
deriving DecidableEq, Repr

/-- Which credential a call was attempted with. -/
inductive Cred where
  | primary
  | fallback
deriving DecidableEq, Repr

/-- `_get_fallback_response(operation, error)`: the canned string for the
operation tag, with a generic default. -/
def getFallbackResponse (operation : String) : String :=
  if operation = "chat" then chatFallbackText
  else if operation = "summary" then summaryFallbackText
  else if operation = "risk_analysis" then riskFallbackText
  else genericFallbackText

/-- Content extraction for the first (primary-path) call, lines 86-105:
empty content falls back to a truthy `reasoning` field; a still-empty
content or an empty choice list raises, and the raise is re-wrapped by the
outer `except Exception` clause (line 135-136). -/
def primaryExtract (choices : List ChoiceMsg) : Except String String :=
  match choices with
  | [] => .error "Chat completion failed: No choices in completion response"
  | m :: _ =>
    let c := if m.content = "" then
        match m.reasoning with
        | some r => if r = "" then m.content else r
        | none => m.content
      else m.content
    if c = "" then .error "Chat completion failed: Empty response from AI model"
    else .ok c

/-- Content extraction for the retry with the fallback credential, lines
119-127: `none` means the inner `raise AIServiceError("Empty response from
fallback AI model")` fires (and is swallowed by the inner
`except Exception`). -/
def fallbackExtract (choices : List ChoiceMsg) : Option String :=
  match choices with
  | [] => none
  | m :: _ =>
    let c := if m.content = "" then
        match m.reasoning with
        | some r => if r = "" then m.content else r
        | none => m.content
      else m.content
    if c = "" then none else some c

/-- `AIService.chat_completion`.  Besides the result it returns the list of
credentials attempted, in order, as the ghost trace of the calls made. -/
def chatCompletion (primaryConfigured fallbackConfigured : Bool)
    (primaryCall fallbackCall : CallOutcome) : Except String String × List Cred :=
  if primaryConfigured ∨ fallbackConfigured then
    let cred : Cred := if primaryConfigured then .primary else .fallback
    let outcome := if primaryConfigured then primaryCall else fallbackCall
    match outcome with
    | .ok choices => (primaryExtract choices, [cred])
    | .authError _ | .rateLimitError _ =>
      if fallbackConfigured ∧ cred = .primary then
        match fallbackCall with
        | .ok choices =>
          match fallbackExtract choices with
          | some content => (.ok content, [cred, .fallback])
          | none => (.ok (getFallbackResponse "chat"), [cred, .fallback])
        | _ => (.ok (getFallbackResponse "chat"), [cred, .fallback])
      else
        (.ok (getFallbackResponse "chat"), [cred])
    | .otherError e => (.error ("Chat completion failed: " ++ e), [cred])
  else
    (.error "OpenAI client not initialized", [])

/-- The four inputs `chat_completion` depends on, bundled. -/
structure Params where
  primaryConfigured : Bool
  fallbackConfigured : Bool
  primaryCall : CallOutcome
  fallbackCall : CallOutcome
deriving DecidableEq, Repr

/-- `AIService.generate_summary` (lines 138-173): builds the prompt and
returns the `chat_completion` result; `AIServiceError` passes through. -/
def generateSummary (p : Params) : Except String String :=
  (chatCompletion p.primaryConfigured p.fallbackConfigured p.primaryCall p.fallbackCall).1

/-- `AIService.generate_risk_analysis` (lines 175-231): builds the prompt and
returns the `chat_completion` result; `AIServiceError` passes through. -/
def generateRiskAnalysis (p : Params) : Except String String :=
  (chatCompletion p.primaryConfigured p.fallbackConfigured p.primaryCall p.fallbackCall).1

/-- True exactly for the outcomes caught by
`except (AuthenticationError, RateLimitError)`. -/
def isAuthOrRateLimit : CallOutcome → Bool
  | .authError _ => true
  | .rateLimitError _ => true
  | _ => false

end AIService

/-! ## Analysis endpoints

Embedded from routes/analysis.py: `summarize_endpoint` (lines 21-101) and
`risk_analysis_endpoint` (lines 104-201).  The authenticated database client
is modelled by the fetched chunk list and by the id the artifact insert
returns (the insert itself is modelled as succeeding; its failure would
propagate out of the handler as a raw exception and is outside every claim
considered here).  An `HTTPException` raised inside the endpoint's `try`
block is caught by the endpoint's own blanket `except Exception` clause and
re-raised as status 500 with detail `f"... : {str(e)}"`, where
`str(HTTPException)` is `f"{status_code}: {detail}"`. -/

namespace Analysis

/-- A row of `document_chunks` as the endpoints read it. -/
structure ChunkRow where
  chunk_text : String
  chunk_index : Nat
deriving DecidableEq, Repr

/-- What the endpoint sends back: a success payload or an HTTP error. -/
inductive Reply where
  | ok (success : Bool) (body : String) (bodyId : Nat)
  | httpError (status : Nat) (detail : String)
deriving DecidableEq, Repr

/-- Result of one endpoint invocation: the reply and the artifacts written
to the database during it. -/
structure Run where
  reply : Reply
  persisted : List String
deriving DecidableEq, Repr

/-- `str(e)` for a `fastapi.HTTPException`: `f"{status_code}: {detail}"`. -/
def httpExcStr (status : Nat) (detail : String) : String :=
  toString status ++ ": " ++ detail

/-- `"\n".join(chunk["chunk_text"] for chunk in chunks)`. -/
def contextOf (chunks : List ChunkRow) : String :=
  String.intercalate "\n" (chunks.map (·.chunk_text))

/-- `summarize_endpoint` (routes/analysis.py lines 39-101), given the chunk
rows fetched for the document, the completion-call outcomes, and the id the
summary insert returns. -/
def summarizeEndpoint (chunks : List ChunkRow) (p : AIService.Params)
    (insertId : Nat) : Run :=
  if chunks = [] then
    ⟨.httpError 500
      ("Failed to generate summary: " ++ httpExcStr 404 "No content found for document"),
     []⟩
  else
    match AIService.generateSummary p with
    | .ok summary => ⟨.ok true summary insertId, [summary]⟩
    | .error _ =>
      ⟨.ok true AIService.endpointSummaryFallbackText insertId,
       [AIService.endpointSummaryFallbackText]⟩

/-- `risk_analysis_endpoint` (routes/analysis.py lines 122-201); the
`not context.strip()` guard is the all-whitespace test on the joined
context. -/
def riskAnalysisEndpoint (chunks : List ChunkRow) (p : AIService.Params)
    (insertId : Nat) : Run :=
  if chunks = [] then
    ⟨.httpError 500
      ("Failed to generate risk analysis: " ++ httpExcStr 404 "No content found for document"),
     []⟩
  else if (contextOf chunks).toList.all (·.isWhitespace) then
    ⟨.httpError 500
      ("Failed to generate risk analysis: " ++ httpExcStr 400 "Document has no readable content"),
     []⟩
  else
    match AIService.generateRiskAnalysis p with
    | .ok analysis => ⟨.ok true analysis insertId, [analysis]⟩
    | .error _ =>
      ⟨.ok true AIService.endpointRiskFallbackText insertId,
       [AIService.endpointRiskFallbackText]⟩

end Analysis

/-! ## Embedding service

Embedded from services/embedding_service.py.  The HuggingFace inference API
call is modelled by its outcome: a raised `requests.RequestException` (which
covers both the transport error and the `raise_for_status()` of a non-2xx
response, since `HTTPError` is a `RequestException`), or a JSON body that is
either a list of vectors or something else.  Vector entries are irrelevant
to every claim and modelled as `Int`. -/

namespace Embedding

/-- The decoded JSON body of a HuggingFace response. -/
inductive HfBody where
  | jsonList (vecs : List (List Int))
  | jsonOther
deriving DecidableEq, Repr

/-- Outcome of the `requests.post` call plus `raise_for_status()`. -/
inductive HfOutcome where
  | requestError (msg : String)
  | response (body : HfBody)
deriving DecidableEq, Repr

/-- `EmbeddingService._generate_api_embeddings` (lines 117-143): a missing
key or an unusable body raises `EmbeddingServiceError`, re-wrapped by the
function's own `except Exception` clause; a `RequestException` is wrapped by
the `except requests.RequestException` clause. -/
def generateApiEmbeddings (apiKeyConfigured : Bool) (outcome : HfOutcome) :
    Except String (List (List Int)) :=
  if apiKeyConfigured = false then
    .error "API embedding generation failed: HuggingFace API key not configured"
  else
    match outcome with
    | .requestError e => .error ("HuggingFace API request failed: " ++ e)
    | .response (.jsonList vecs) =>
      if 0 < vecs.length then .ok vecs
      else .error "API embedding generation failed: Invalid response from HuggingFace API"
    | .response .jsonOther =>
      .error "API embedding generation failed: Invalid response from HuggingFace API"

/-- `EmbeddingService._generate_legal_bert_embeddings` (lines 82-115): the
local model's outcome is abstract; on its failure the API path is tried. -/
def generateLegalBertEmbeddings (bertOutcome : Except String (List (List Int)))
    (apiKeyConfigured : Bool) (apiOutcome : HfOutcome) :
    Except String (List (List Int)) :=
  match bertOutcome with
  | .ok v => .ok v
  | .error _ => generateApiEmbeddings apiKeyConfigured apiOutcome

/-- `EmbeddingService.generate_embeddings` (lines 58-80): LegalBERT when
loaded, else the API path; any escaping exception is re-raised as
`EmbeddingServiceError("Failed to generate embeddings: ...")`. -/
def generateEmbeddings (modelLoaded : Bool)
    (bertOutcome : Except String (List (List Int))) (apiKeyConfigured : Bool)
    (apiOutcome : HfOutcome) : Except String (List (List Int)) :=
  match (if modelLoaded then
      generateLegalBertEmbeddings bertOutcome apiKeyConfigured apiOutcome
    else generateApiEmbeddings apiKeyConfigured apiOutcome) with
  | .ok v => .ok v
  | .error e => .error ("Failed to generate embeddings: " ++ e)

/-- "Provider unavailable" as the spec words it: transport error or non-2xx
response (both `requestError` here), or a malformed response (not a list,
or an empty list). -/
def providerUnavailable : HfOutcome → Prop
  | .requestError _ => True
  | .response (.jsonList vecs) => vecs = []
  | .response .jsonOther => True

end Embedding

/-! ## Store access and retrieval

Embedded from services/supabase_service.py.  The database table
`document_chunks` is modelled as a list of rows; `get_document_chunks`
performs `select * ... eq document_id ... order chunk_index`, modelled as
filter plus a stable sort on the ordinal index.  The `match_documents` RPC
is a SQL function inside the database, not part of the repository's files,
so it is modelled from the spec (section 4.3). -/

namespace Supabase

/-- A stored chunk row with its optional embedding vector. -/
structure VChunk where
  document_id : Nat
  chunk_index : Nat
  chunk_text : String
  embedding : Option (List Rat)
deriving DecidableEq, Repr

/-- `SupabaseService.get_document_chunks` (lines 65-80): the rows of the
document, ordered by `chunk_index` (stable). -/
def getDocumentChunks (store : List VChunk) (docId : Nat) : List VChunk :=
  (store.filter (fun c => c.document_id == docId)).mergeSort
    (fun a b => decide (a.chunk_index ≤ b.chunk_index))

/-- Outcome of the `match_documents` RPC call: an exception, or a response
whose `.data` may be null. -/
inductive RpcResult where
  | rpcError (msg : String)
  | rpcData (data : Option (List VChunk))
deriving DecidableEq, Repr

/-- `SupabaseService.search_similar_chunks` (lines 108-141): the RPC's rows
(`response.data or []`) on success, and on any exception the fallback
`get_document_chunks` fetch of all the document's chunks. -/
def searchSimilarChunks (store : List VChunk) (docId : Nat)
    (rpc : RpcResult) : List VChunk :=
  match rpc with
  | .rpcData data => data.getD []
  | .rpcError _ => getDocumentChunks store docId

/-- Similarity of the query vector against a stored chunk under an abstract
metric; a chunk with no vector scores 0 (it is filtered out before this is
ever compared). -/
def simOf (sim : List Rat → List Rat → Rat) (q : List Rat) (c : VChunk) : Rat :=
  match c.embedding with
  | some v => sim q v
  | none => 0

/-- Ordering used by the retrieval model: descending similarity, ties broken
by ascending chunk ordinal index. -/
def rankLe (sim : List Rat → List Rat → Rat) (q : List Rat) (a b : VChunk) : Bool :=
  decide (simOf sim q b < simOf sim q a) ||
    (decide (simOf sim q a = simOf sim q b) && decide (a.chunk_index ≤ b.chunk_index))

/-- Modelled from the spec: the `match_documents` RPC (a SQL function inside
the database, not among the repository's files).  Section 4.3: similarity of
the query vector against each stored chunk vector of the document (chunks
whose vector is still null are treated as non-matching, section 5), keep
those whose similarity exceeds the threshold, order descending by similarity
with ascending-ordinal tie-break, return at most `matchCount`.  The metric
itself (the spec intends cosine similarity) is the abstract parameter `sim`;
every property claimed of the retrieval is independent of it. -/
def matchDocuments (sim : List Rat → List Rat → Rat) (store : List VChunk)
    (q : List Rat) (threshold : Rat) (matchCount : Nat) (docId : Nat) :
    List VChunk :=
  (((store.filter (fun c => c.document_id == docId && c.embedding.isSome)).filter
      (fun c => decide (threshold < simOf sim q c))).mergeSort
    (rankLe sim q)).take matchCount

end Supabase

/-! ## Ingestion pipeline

Embedded from routes/documents.py, `process_document` (lines 206-303).  The
text splitter call is the modelled Chunker; the embedding-service call and
each batch's `insert(...).execute()` are modelled by their outcomes.  The
wall-clock `processing_time` field is not modelled. -/

namespace Documents

/-- A chunk row as `process_document` builds it before insertion. -/
structure IngestRow where
  document_id : String
  chunk_text : List Char
  chunk_index : Nat
  embedding : List Int
deriving DecidableEq, Repr

/-- Outcome of one batch's `insert(batch).execute()`: an exception, or a
response carrying `len(response.data)` rows (0 also covers a falsy
`data`). -/
inductive InsertOutcome where
  | raised (msg : String)
  | returned (rows : Nat)
deriving DecidableEq, Repr

/-- The batches `chunk_data[i:i + batch_size]` for `batch_size = 50`
(line 269). -/
def chunkBatches (l : List IngestRow) : List (List IngestRow) :=
  if l = [] then [] else l.take 50 :: chunkBatches (l.drop 50)
termination_by l.length
decreasing_by
  rename_i h
  have : 0 < l.length := List.length_pos.mpr h
  simp only [List.length_drop]
  omega

/-- The insert loop (lines 273-281): each batch either succeeds, adding
`len(response.data)` to `total_inserted` when truthy, or raises, adding the
batch's size to `failed_chunks`; either way the loop continues.  Returns
`(total_inserted, failed_chunks)`; `k` is the index of the first batch. -/
def insertLoop (outcome : Nat → InsertOutcome) :
    Nat → List (List IngestRow) → Nat × Nat
  | _, [] => (0, 0)
  | k, b :: bs =>
    let rest := insertLoop outcome (k + 1) bs
    match outcome k with
    | .returned n => (if 0 < n then n + rest.1 else rest.1, rest.2)
    | .raised _ => (rest.1, b.length + rest.2)

/-- The `chunk_data` list `process_document` builds (lines 252-259). -/
def ingestRows (document_id : String) (chunks : List (List Char))
    (embeddings : List (List Int)) : List IngestRow :=
  (chunks.zip embeddings).enum.map
    (fun p => IngestRow.mk document_id p.2.1 p.1 p.2.2)

/-- What `process_document` returns: the error dict (`success: False`) or
the success dict with its counts. -/
inductive ProcessOutcome where
  | failure (error : String)
  | success (chunks_inserted total_chunks failed_chunks : Nat)
deriving DecidableEq, Repr

/-- `process_document(text, user_id, document_id)`: validation, chunking,
embedding, batched insert.  Every exception raised inside is caught by the
function's own `except Exception` clause and turned into the failure dict
with the message `f"Error processing document {document_id}: {str(e)}"`. -/
def processDocument (text : List Char) (user_id document_id : String)
    (chunkSize overlap : Nat)
    (embedOutcome : Except String (List (List Int)))
    (insertOutcome : Nat → InsertOutcome) : ProcessOutcome :=
  if text.all (·.isWhitespace) then
    .failure ("Error processing document " ++ document_id ++
      ": Text content is required and cannot be empty")
  else if user_id = "" then
    .failure ("Error processing document " ++ document_id ++ ": User ID is required")
  else if document_id = "" then
    .failure ("Error processing document " ++ document_id ++ ": Document ID is required")
  else
    let chunks := Chunker.split text chunkSize overlap
    if chunks = [] then .failure "No chunks created from text"
    else
      match embedOutcome with
      | .error e => .failure ("Error processing document " ++ document_id ++ ": " ++ e)
      | .ok embeddings =>
        let res := insertLoop insertOutcome 0
          (chunkBatches (ingestRows document_id chunks embeddings))
        .success res.1 chunks.length res.2

/-- True for the batch indices whose insert raised. -/
def batchRaised (outcome : Nat → InsertOutcome) (k : Nat) : Bool :=
  match outcome k with
  | .raised _ => true
  | .returned _ => false

/-- Total size of the batches whose insert raised, counting from index `k`. -/
def raisedSizesFrom (outcome : Nat → InsertOutcome) (k : Nat)
    (bs : List (List IngestRow)) : Nat :=
  (((bs.enumFrom k).filter (fun p => batchRaised outcome p.1)).map
    (fun p => p.2.length)).sum

/-- Total of the returned row counts of the batches whose insert succeeded,
counting from index `k`. -/
def okRowsFrom (outcome : Nat → InsertOutcome) (k : Nat)
    (bs : List (List IngestRow)) : Nat :=
  ((bs.enumFrom k).map (fun p =>
    match outcome p.1 with
    | .returned n => n
    | .raised _ => 0)).sum

theorem insertLoop_spec (outcome : Nat → InsertOutcome) :
    ∀ (bs : List (List IngestRow)) (k : Nat),
      insertLoop outcome k bs =
        (okRowsFrom outcome k bs, raisedSizesFrom outcome k bs) := by
  intro bs
  induction bs with
  | nil => intro k; rfl
  | cons b bs ih =>
      intro k
      rw [insertLoop, ih (k + 1)]
      unfold okRowsFrom raisedSizesFrom batchRaised
      cases houtcome : outcome k with
      | returned n =>
          simp only [List.enumFrom, List.map_cons, List.filter, houtcome,
            List.sum_cons, Prod.mk.injEq]
          refine ⟨?_, ?_⟩
          · split <;> omega
          · trivial
      | raised msg =>
          simp only [List.enumFrom, List.map_cons, List.filter, houtcome,
            List.sum_cons, Prod.mk.injEq]
          refine ⟨?_, ?_⟩ <;> first | trivial | omega

theorem chunkBatches_flatten :
    ∀ n (l : List IngestRow), l.length ≤ n → (chunkBatches l).flatten = l := by
  intro n
  induction n with
  | zero =>
      intro l hlen
      have : l = [] := List.length_eq_zero.mp (Nat.le_zero.mp hlen)
      subst this
      rw [chunkBatches]
      simp
  | succ n ih =>
      intro l hlen
      rw [chunkBatches]
      by_cases hnil : l = []
      · rw [if_pos hnil]; simp [hnil]
      · rw [if_neg hnil]
        have hpos : 0 < l.length := List.length_pos.mpr hnil
        have : (l.drop 50).length ≤ n := by
          rw [List.length_drop]; omega
        rw [List.flatten_cons, ih _ this, List.take_append_drop]

theorem chunkBatches_sizes :
    ∀ n (l : List IngestRow), l.length ≤ n →
      ∀ b ∈ chunkBatches l, b ≠ [] ∧ b.length ≤ 50 := by
  intro n
  induction n with
  | zero =>
      intro l hlen b hb
      have : l = [] := List.length_eq_zero.mp (Nat.le_zero.mp hlen)
      subst this
      rw [chunkBatches] at hb
      simp at hb
  | succ n ih =>
      intro l hlen b hb
      rw [chunkBatches] at hb
      by_cases hnil : l = []
      · rw [if_pos hnil] at hb; simp at hb
      · rw [if_neg hnil] at hb
        have hpos : 0 < l.length := List.length_pos.mpr hnil
        rcases List.mem_cons.mp hb with h | h
        · subst h
          constructor
          · rw [← List.length_pos, List.length_take]; omega
          · rw [List.length_take]; omega
        · have : (l.drop 50).length ≤ n := by
            rw [List.length_drop]; omega
          exact ih _ this b h

theorem chunkBatches_ne_nil {l : List IngestRow} (h : l ≠ []) :
    chunkBatches l ≠ [] := by
  rw [chunkBatches, if_neg h]
  simp

theorem chunkBatches_full :
    ∀ n (l : List IngestRow), l.length ≤ n →
      ∀ b ∈ (chunkBatches l).dropLast, b.length = 50 := by
  intro n
  induction n with
  | zero =>
      intro l hlen b hb
      have : l = [] := List.length_eq_zero.mp (Nat.le_zero.mp hlen)
      subst this
      rw [chunkBatches] at hb
      simp at hb
  | succ n ih =>
      intro l hlen b hb
      rw [chunkBatches] at hb
      by_cases hnil : l = []
      · rw [if_pos hnil] at hb; simp at hb
      · rw [if_neg hnil] at hb
        by_cases hrest : l.drop 50 = []
        · rw [chunkBatches, if_pos hrest] at hb
          simp at hb
        · have hne := chunkBatches_ne_nil hrest
          rcases hcb : chunkBatches (l.drop 50) with _ | ⟨c, cs⟩
          · exact absurd hcb hne
          · rw [hcb, List.dropLast_cons₂] at hb
            rcases List.mem_cons.mp hb with h | h
            · subst h
              have hlong : 50 < l.length := by
                by_contra hshort
                push_neg at hshort
                exact hrest (List.drop_eq_nil_of_le hshort)
              rw [List.length_take]
              omega
            · have hlen' : (l.drop 50).length ≤ n := by
                have hpos : 0 < l.length := List.length_pos.mpr hnil
                rw [List.length_drop]; omega
              have := ih _ hlen' b
              rw [hcb] at this
              exact this h

end Documents

/-! ## Claims -/

/-- C4 (amended): for every input text containing at least one
non-whitespace character and parameters with overlap < chunk_size, the
Chunker's split returns a non-empty sequence of non-empty chunks, no chunk
exceeds chunk_size characters, and the concatenation ignoring the overlap
duplication reconstructs the original text. -/
theorem claim_C4_chunker_shape (text : List Char) (chunkSize overlap : Nat)
    (hov : overlap < chunkSize) (hnb : ¬ text.all (·.isWhitespace)) :
    Chunker.split text chunkSize overlap ≠ [] ∧
    (∀ c ∈ Chunker.split text chunkSize overlap, c ≠ [] ∧ c.length ≤ chunkSize) ∧
    Chunker.joinOverlap overlap (Chunker.split text chunkSize overlap) = text := by
  have hne := Chunker.not_blank_ne_nil hnb
  rw [Chunker.split_not_blank hnb]
  obtain ⟨h1, h2⟩ := Chunker.go_shape hov text.length text le_rfl hne
  exact ⟨h1, h2, Chunker.go_joinOverlap hov text⟩

/-- Witness for C4 at text "ab", chunk_size 3, overlap 1. -/
theorem claim_C4_chunker_shape_witness :
    Chunker.split ['a', 'b'] 3 1 ≠ [] ∧
    (∀ c ∈ Chunker.split ['a', 'b'] 3 1, c ≠ [] ∧ c.length ≤ 3) ∧
    Chunker.joinOverlap 1 (Chunker.split ['a', 'b'] 3 1) = ['a', 'b'] :=
  claim_C4_chunker_shape ['a', 'b'] 3 1 (by decide) (by decide)

/-- C4 counterexample: the whitespace-only text " " is non-empty input, yet
split returns the empty sequence (as C9 and spec section 4.1 require), so
C4 as stated — every non-empty input yields a non-empty chunk sequence that
reconstructs the text — is false. -/
theorem claim_C4_counterexample :
    ([' '] : List Char) ≠ [] ∧ Chunker.split [' '] 800 100 = [] := by
  constructor
  · decide
  · rw [Chunker.split_blank (by decide)]

/-- C9: empty or whitespace-only input yields the empty chunk sequence;
otherwise input shorter than chunk_size yields exactly one chunk; and
`process_document` on empty or whitespace-only text fails with the
`ValidationError` message (the raise is converted to the failure dict by
the function's own blanket exception handler). -/
theorem claim_C9_chunker_edge_cases :
    (∀ (text : List Char) (chunkSize overlap : Nat),
      text.all (·.isWhitespace) → Chunker.split text chunkSize overlap = []) ∧
    (∀ (text : List Char) (chunkSize overlap : Nat),
      ¬ text.all (·.isWhitespace) → text.length < chunkSize →
      Chunker.split text chunkSize overlap = [text]) ∧
    (∀ (text : List Char) (uid did : String) (chunkSize overlap : Nat)
      (eo : Except String (List (List Int))) (io : Nat → Documents.InsertOutcome),
      text.all (·.isWhitespace) →
      Documents.processDocument text uid did chunkSize overlap eo io =
        .failure ("Error processing document " ++ did ++
          ": Text content is required and cannot be empty")) := by
  refine ⟨?_, ?_, ?_⟩
  · intro text chunkSize overlap h
    exact Chunker.split_blank h
  · intro text chunkSize overlap hnb hlen
    exact Chunker.split_single hnb (Nat.le_of_lt hlen)
  · intro text uid did chunkSize overlap eo io h
    rw [Documents.processDocument, if_pos h]

/-- Witness for C9 at " " (blank), "ab" (short), and a blank ingestion. -/
theorem claim_C9_chunker_edge_cases_witness :
    Chunker.split [' '] 800 100 = [] ∧
    Chunker.split ['a', 'b'] 800 100 = [['a', 'b']] ∧
    Documents.processDocument [' '] "u" "d" 800 100 (.ok []) (fun _ => .returned 0) =
      .failure ("Error processing document " ++ "d" ++
        ": Text content is required and cannot be empty") :=
  ⟨claim_C9_chunker_edge_cases.1 [' '] 800 100 (by decide),
   claim_C9_chunker_edge_cases.2.1 ['a', 'b'] 800 100 (by decide) (by decide),
   claim_C9_chunker_edge_cases.2.2 [' '] "u" "d" 800 100 (.ok [])
     (fun _ => .returned 0) (by decide)⟩

/-- C10: over any chronological sequence of calls for one client, at most
`limit` calls that `is_allowed` answers True have their timestamps inside
any single closed sliding window of `window` seconds; and a denied call
records nothing (the deque after it is exactly the pruned deque). -/
theorem claim_C10_rate_limiter (limit : Nat) (window : Int) (ts : List Int)
    (hts : ts.Pairwise (· ≤ ·)) (a : Int) :
    ((RateLimiter.allowedTimes limit window [] ts).filter
        (RateLimiter.inWindow a window)).length ≤ limit ∧
    ∀ (dq : List Int) (t : Int),
      (RateLimiter.isAllowedStep limit window dq t).1 = false →
      (RateLimiter.isAllowedStep limit window dq t).2 =
        RateLimiter.pruneWindow t window dq := by
  constructor
  · have h := RateLimiter.count_bound limit window a ts hts [] (by simp)
    simpa using h
  · intro dq t hfalse
    unfold RateLimiter.isAllowedStep at hfalse ⊢
    by_cases h : limit ≤ (RateLimiter.pruneWindow t window dq).length
    · simp only [if_pos h]
    · simp only [if_neg h] at hfalse
      exact absurd hfalse (by simp)

/-- Witness for C10: limit 2, window 10, calls at times 0, 1, 2, 3, window
start 0. -/
theorem claim_C10_rate_limiter_witness :
    ((RateLimiter.allowedTimes 2 10 [] [0, 1, 2, 3]).filter
        (RateLimiter.inWindow 0 10)).length ≤ 2 ∧
    ∀ (dq : List Int) (t : Int),
      (RateLimiter.isAllowedStep 2 10 dq t).1 = false →
      (RateLimiter.isAllowedStep 2 10 dq t).2 = RateLimiter.pruneWindow t 10 dq :=
  claim_C10_rate_limiter 2 10 [0, 1, 2, 3] (by decide) 0

/-- The canned "chat" fallback is what `_get_fallback_response("chat", ...)`
returns. -/
theorem getFallbackResponse_chat :
    AIService.getFallbackResponse "chat" = AIService.chatFallbackText := by
  rfl

/-- When the attempted primary call and the retried fallback call both fail
with an authentication or rate-limit error, `chat_completion` returns the
canned "chat" response (it does not raise). -/
theorem chatCompletion_both_limited (o1 o2 : AIService.CallOutcome)
    (h1 : AIService.isAuthOrRateLimit o1 = true)
    (h2 : AIService.isAuthOrRateLimit o2 = true) :
    AIService.chatCompletion true true o1 o2 =
      (.ok AIService.chatFallbackText, [.primary, .fallback]) := by
  rw [← getFallbackResponse_chat]
  cases o1 with
  | ok choices => exact absurd h1 (by simp [AIService.isAuthOrRateLimit])
  | otherError m => exact absurd h1 (by simp [AIService.isAuthOrRateLimit])
  | authError m =>
      cases o2 with
      | ok choices => exact absurd h2 (by simp [AIService.isAuthOrRateLimit])
      | otherError m2 => exact absurd h2 (by simp [AIService.isAuthOrRateLimit])
      | authError m2 => rfl
      | rateLimitError m2 => rfl
  | rateLimitError m =>
      cases o2 with
      | ok choices => exact absurd h2 (by simp [AIService.isAuthOrRateLimit])
      | otherError m2 => exact absurd h2 (by simp [AIService.isAuthOrRateLimit])
      | authError m2 => rfl
      | rateLimitError m2 => rfl

/-- C7: on an authentication failure of the primary credential with a
configured secondary whose call succeeds with non-empty content,
`chat_completion` returns the secondary's content, and the trace of
attempted credentials is exactly [primary, fallback]: the full call is
retried exactly once with the not-yet-tried credential, with no chaining
beyond the two. -/
theorem claim_C7_fallback_chain (e : String) (m : AIService.ChoiceMsg)
    (rest : List AIService.ChoiceMsg) (h : m.content ≠ "") :
    AIService.chatCompletion true true (.authError e) (.ok (m :: rest)) =
      (.ok m.content, [.primary, .fallback]) := by
  simp only [AIService.chatCompletion, AIService.fallbackExtract]
  rw [if_neg h]
  rw [if_neg h]
  rfl

/-- Witness for C7: primary raises an authentication error, the secondary
returns content "hello". -/
theorem claim_C7_fallback_chain_witness :
    AIService.chatCompletion true true (.authError "401")
        (.ok [AIService.ChoiceMsg.mk "hello" none]) =
      (.ok "hello", [.primary, .fallback]) :=
  claim_C7_fallback_chain "401" (AIService.ChoiceMsg.mk "hello" none) [] (by decide)

/-- C1 counterexample: with one chunk and a rate-limit error on both
credentials, the risk-analysis endpoint answers success with the canned
CHAT apology string — substituted inside `chat_completion` itself — and
persists that string; the orchestrator's canned HTML risk fallback (a
different string) is not used. -/
theorem claim_C1_counterexample :
    Analysis.riskAnalysisEndpoint [Analysis.ChunkRow.mk "Some clause" 0]
        (AIService.Params.mk true true (.rateLimitError "429") (.rateLimitError "429")) 7 =
      Analysis.Run.mk (.ok true AIService.chatFallbackText 7) [AIService.chatFallbackText] ∧
    AIService.chatFallbackText ≠ AIService.endpointRiskFallbackText := by
  constructor
  · rw [Analysis.riskAnalysisEndpoint]
    rw [if_neg (by decide), if_neg (by decide)]
    have h : AIService.generateRiskAnalysis
        (AIService.Params.mk true true (.rateLimitError "429") (.rateLimitError "429")) =
        .ok AIService.chatFallbackText := by
      unfold AIService.generateRiskAnalysis
      rw [chatCompletion_both_limited (.rateLimitError "429") (.rateLimitError "429")
        (by rfl) (by rfl)]
    rw [h]
  · decide

/-- C1 (amended): for every risk-analysis request on a document with at
least one chunk and non-blank combined text, if the LLM call raises a
rate-limit or authentication error on both credentials, the endpoint
responds success=true with the analysis equal to the canned CHAT fallback
string (the substitution happens inside the Completion Client, which
returns that string instead of raising), and that chat string is persisted
as the document's risk analysis.  The orchestrator's canned HTML risk
fallback is reserved for the `AIServiceError`-raising failures. -/
theorem claim_C1_risk_rate_limited (chunks : List Analysis.ChunkRow)
    (p : AIService.Params) (insertId : Nat) (hne : chunks ≠ [])
    (hnb : ¬ (Analysis.contextOf chunks).toList.all (·.isWhitespace))
    (hp : p.primaryConfigured = true) (hf : p.fallbackConfigured = true)
    (h1 : AIService.isAuthOrRateLimit p.primaryCall = true)
    (h2 : AIService.isAuthOrRateLimit p.fallbackCall = true) :
    Analysis.riskAnalysisEndpoint chunks p insertId =
      Analysis.Run.mk (.ok true AIService.chatFallbackText insertId)
        [AIService.chatFallbackText] := by
  rw [Analysis.riskAnalysisEndpoint, if_neg hne, if_neg hnb]
  have h : AIService.generateRiskAnalysis p = .ok AIService.chatFallbackText := by
    unfold AIService.generateRiskAnalysis
    rcases p with ⟨pc, fc, o1, o2⟩
    simp only at hp hf h1 h2
    subst hp hf
    rw [chatCompletion_both_limited o1 o2 h1 h2]
  rw [h]

/-- Witness for C1 (amended) at one chunk and rate-limit errors on both
credentials. -/
theorem claim_C1_risk_rate_limited_witness :
    Analysis.riskAnalysisEndpoint [Analysis.ChunkRow.mk "Some clause" 0]
        (AIService.Params.mk true true (.rateLimitError "429") (.rateLimitError "429")) 3 =
      Analysis.Run.mk (.ok true AIService.chatFallbackText 3)
        [AIService.chatFallbackText] :=
  claim_C1_risk_rate_limited [Analysis.ChunkRow.mk "Some clause" 0]
    (AIService.Params.mk true true (.rateLimitError "429") (.rateLimitError "429")) 3
    (by decide) (by decide) (by rfl) (by rfl) (by rfl) (by rfl)

/-- C3 (code bug): `summarize` on a document with zero chunks persists no
artifact, but the deliberate `HTTPException(404)` is swallowed by the
endpoint's own blanket `except Exception` clause and re-raised as status
500 with the 404 text inside the detail, so the user-visible status is 500,
not the claimed 404. -/
theorem claim_C3_summary_no_chunks (p : AIService.Params) (insertId : Nat) :
    Analysis.summarizeEndpoint [] p insertId =
      Analysis.Run.mk
        (.httpError 500
          ("Failed to generate summary: " ++ Analysis.httpExcStr 404 "No content found for document"))
        [] := by
  rw [Analysis.summarizeEndpoint, if_pos rfl]

/-- C2 counterexample: on a transport error from the embedding provider,
`generate_embeddings` raises `EmbeddingServiceError` (modelled as `.error`)
instead of falling back to any deterministic local vector. -/
theorem claim_C2_counterexample :
    Embedding.generateEmbeddings false (.error "") true (.requestError "connection error") =
      .error "Failed to generate embeddings: HuggingFace API request failed: connection error" := by
  rfl

/-- C2 (amended): whenever the embedding provider is unavailable (transport
error or non-2xx response, a response that is not a list, or an empty
list), `generate_embeddings` raises `EmbeddingServiceError`; the service
has no deterministic local hash-based fallback vector. -/
theorem claim_C2_embedder_raises (bertOutcome : Except String (List (List Int)))
    (apiKeyConfigured : Bool) (outcome : Embedding.HfOutcome)
    (h : Embedding.providerUnavailable outcome) :
    ∃ e, Embedding.generateEmbeddings false bertOutcome apiKeyConfigured outcome =
      Except.error e := by
  cases apiKeyConfigured with
  | false => exact ⟨_, rfl⟩
  | true =>
      cases outcome with
      | requestError msg => exact ⟨_, rfl⟩
      | response body =>
          cases body with
          | jsonList vecs =>
              have hnil : vecs = [] := h
              subst hnil
              exact ⟨_, rfl⟩
          | jsonOther => exact ⟨_, rfl⟩

/-- Witness for C2 (amended) at a transport error. -/
theorem claim_C2_embedder_raises_witness :
    ∃ e, Embedding.generateEmbeddings false (.error "") true (.requestError "timeout") =
      Except.error e :=
  claim_C2_embedder_raises (.error "") true (.requestError "timeout") trivial

/-- The retrieval order is transitive. -/
theorem rankLe_trans (sim : List Rat → List Rat → Rat) (q : List Rat) :
    ∀ a b c : Supabase.VChunk, Supabase.rankLe sim q a b = true →
      Supabase.rankLe sim q b c = true → Supabase.rankLe sim q a c = true := by
  intro a b c hab hbc
  simp only [Supabase.rankLe, Bool.or_eq_true, Bool.and_eq_true,
    decide_eq_true_eq] at hab hbc ⊢
  rcases hab with h | ⟨he, hi⟩
  · rcases hbc with h2 | ⟨he2, hi2⟩
    · exact Or.inl (lt_trans h2 h)
    · exact Or.inl (by rw [← he2]; exact h)
  · rcases hbc with h2 | ⟨he2, hi2⟩
    · exact Or.inl (by rw [he]; exact h2)
    · exact Or.inr ⟨he.trans he2, le_trans hi hi2⟩

/-- The retrieval order is total. -/
theorem rankLe_total (sim : List Rat → List Rat → Rat) (q : List Rat) :
    ∀ a b : Supabase.VChunk,
      (Supabase.rankLe sim q a b || Supabase.rankLe sim q b a) = true := by
  intro a b
  simp only [Supabase.rankLe, Bool.or_eq_true, Bool.and_eq_true,
    decide_eq_true_eq]
  rcases lt_trichotomy (Supabase.simOf sim q a) (Supabase.simOf sim q b) with h | h | h
  · exact Or.inr (Or.inl h)
  · rcases Nat.le_total a.chunk_index b.chunk_index with hle | hle
    · exact Or.inl (Or.inr ⟨h, hle⟩)
    · exact Or.inr (Or.inr ⟨h.symm, hle⟩)
  · exact Or.inl (Or.inl h)

/-- C5: for every similarity metric, store, query vector, threshold, result
limit and document, the retrieval returns at most `matchCount` chunks, every
returned chunk belongs to the document and has similarity strictly above the
threshold, and the results are ordered by descending similarity with ties
broken by ascending chunk ordinal index. -/
theorem claim_C5_retriever_order (sim : List Rat → List Rat → Rat)
    (store : List Supabase.VChunk) (q : List Rat) (threshold : Rat)
    (matchCount : Nat) (docId : Nat) :
    (Supabase.matchDocuments sim store q threshold matchCount docId).length ≤ matchCount ∧
    (∀ c ∈ Supabase.matchDocuments sim store q threshold matchCount docId,
      threshold < Supabase.simOf sim q c ∧ c.document_id = docId) ∧
    (Supabase.matchDocuments sim store q threshold matchCount docId).Pairwise
      (fun a b => Supabase.simOf sim q b < Supabase.simOf sim q a ∨
        (Supabase.simOf sim q a = Supabase.simOf sim q b ∧
          a.chunk_index ≤ b.chunk_index)) := by
  refine ⟨List.length_take_le _ _, ?_, ?_⟩
  · intro c hc
    have hms : c ∈ ((store.filter
        (fun c => c.document_id == docId && c.embedding.isSome)).filter
        (fun c => decide (threshold < Supabase.simOf sim q c))).mergeSort
        (Supabase.rankLe sim q) := (List.take_sublist _ _).subset hc
    have hf2 := List.mem_mergeSort.mp hms
    have hf := List.mem_filter.mp hf2
    have hf1 := List.mem_filter.mp hf.1
    refine ⟨by simpa using hf.2, ?_⟩
    have := hf1.2
    simp only [Bool.and_eq_true, beq_iff_eq] at this
    exact this.1
  · have hs := @List.sorted_mergeSort _ (Supabase.rankLe sim q)
      (rankLe_trans sim q) (rankLe_total sim q)
      ((store.filter (fun c => c.document_id == docId && c.embedding.isSome)).filter
        (fun c => decide (threshold < Supabase.simOf sim q c)))
    have htake := hs.sublist (List.take_sublist matchCount _)
    exact htake.imp (fun h => by
      simpa only [Supabase.rankLe, Bool.or_eq_true, Bool.and_eq_true,
        decide_eq_true_eq] using h)

/-- C6: when the similarity RPC raises, `search_similar_chunks` returns the
`get_document_chunks` fallback instead of failing; that fallback is every
chunk of the document, ordered by ascending chunk ordinal index. -/
theorem claim_C6_search_fallback (store : List Supabase.VChunk) (docId : Nat)
    (msg : String) :
    Supabase.searchSimilarChunks store docId (.rpcError msg) =
      Supabase.getDocumentChunks store docId ∧
    (Supabase.getDocumentChunks store docId).Pairwise
      (fun a b => a.chunk_index ≤ b.chunk_index) ∧
    ∀ c, c ∈ Supabase.getDocumentChunks store docId ↔
      c ∈ store ∧ c.document_id = docId := by
  refine ⟨rfl, ?_, ?_⟩
  · have hs := @List.sorted_mergeSort _
      (fun a b : Supabase.VChunk => decide (a.chunk_index ≤ b.chunk_index))
      (fun a b c h1 h2 => by
        simp only [decide_eq_true_eq] at h1 h2 ⊢; omega)
      (fun a b => by
        simp only [Bool.or_eq_true, decide_eq_true_eq]; omega)
      (store.filter (fun c => c.document_id == docId))
    exact hs.imp (fun h => by simpa using h)
  · intro c
    unfold Supabase.getDocumentChunks
    rw [List.mem_mergeSort, List.mem_filter]
    simp [beq_iff_eq]

/-- C8: the ingestion persists chunk rows in batches of 50 (every batch is
non-empty and at most 50 rows, every batch but the last exactly 50, and
together the batches are exactly the row list); for every pattern of
per-batch insert outcomes the pipeline still returns the success dict —
failures are never raised — with `failed_chunks` equal to the total size of
the batches whose insert raised and `chunks_inserted` the total of the
returned row counts, so processing continues past a failed batch. -/
theorem claim_C8_batch_failures (text : List Char) (uid did : String)
    (chunkSize overlap : Nat) (hov : overlap < chunkSize)
    (hnb : ¬ text.all (·.isWhitespace)) (hu : ¬ uid = "") (hd : ¬ did = "")
    (embeds : List (List Int)) (io : Nat → Documents.InsertOutcome) :
    Documents.processDocument text uid did chunkSize overlap (.ok embeds) io =
      .success
        (Documents.okRowsFrom io 0 (Documents.chunkBatches
          (Documents.ingestRows did (Chunker.split text chunkSize overlap) embeds)))
        (Chunker.split text chunkSize overlap).length
        (Documents.raisedSizesFrom io 0 (Documents.chunkBatches
          (Documents.ingestRows did (Chunker.split text chunkSize overlap) embeds))) ∧
    (Documents.chunkBatches
        (Documents.ingestRows did (Chunker.split text chunkSize overlap) embeds)).flatten =
      Documents.ingestRows did (Chunker.split text chunkSize overlap) embeds ∧
    (∀ b ∈ Documents.chunkBatches
        (Documents.ingestRows did (Chunker.split text chunkSize overlap) embeds),
      b ≠ [] ∧ b.length ≤ 50) ∧
    (∀ b ∈ (Documents.chunkBatches
        (Documents.ingestRows did (Chunker.split text chunkSize overlap) embeds)).dropLast,
      b.length = 50) := by
  refine ⟨?_, Documents.chunkBatches_flatten _ _ le_rfl,
    Documents.chunkBatches_sizes _ _ le_rfl,
    Documents.chunkBatches_full _ _ le_rfl⟩
  rw [Documents.processDocument, if_neg hnb, if_neg hu, if_neg hd]
  have hcne : Chunker.split text chunkSize overlap ≠ [] := by
    rw [Chunker.split_not_blank hnb]
    exact (Chunker.go_shape hov text.length text le_rfl
      (Chunker.not_blank_ne_nil hnb)).1
  rw [if_neg hcne]
  simp only [Documents.insertLoop_spec]

/-- Witness for C8: a 4-character text chunked with size 3 / overlap 1, two
embedding vectors, and an insert that raises on every batch. -/
theorem claim_C8_batch_failures_witness :
    Documents.processDocument ['a', 'b', 'c', 'd'] "u" "d" 3 1 (.ok [[1], [2]])
        (fun _ => .raised "boom") =
      .success
        (Documents.okRowsFrom (fun _ => .raised "boom") 0 (Documents.chunkBatches
          (Documents.ingestRows "d" (Chunker.split ['a', 'b', 'c', 'd'] 3 1) [[1], [2]])))
        (Chunker.split ['a', 'b', 'c', 'd'] 3 1).length
        (Documents.raisedSizesFrom (fun _ => .raised "boom") 0 (Documents.chunkBatches
          (Documents.ingestRows "d" (Chunker.split ['a', 'b', 'c', 'd'] 3 1) [[1], [2]]))) ∧
    (Documents.chunkBatches
        (Documents.ingestRows "d" (Chunker.split ['a', 'b', 'c', 'd'] 3 1) [[1], [2]])).flatten =
      Documents.ingestRows "d" (Chunker.split ['a', 'b', 'c', 'd'] 3 1) [[1], [2]] ∧
    (∀ b ∈ Documents.chunkBatches
        (Documents.ingestRows "d" (Chunker.split ['a', 'b', 'c', 'd'] 3 1) [[1], [2]]),
      b ≠ [] ∧ b.length ≤ 50) ∧
    (∀ b ∈ (Documents.chunkBatches
        (Documents.ingestRows "d" (Chunker.split ['a', 'b', 'c', 'd'] 3 1) [[1], [2]])).dropLast,
      b.length = 50) :=
  claim_C8_batch_failures ['a', 'b', 'c', 'd'] "u" "d" 3 1 (by decide) (by decide)
    (by decide) (by decide) [[1], [2]] (fun _ => .raised "boom")

end ContractIQ
